import Mathlib

/-!
Verification of the PENUMBRA simulation core (tile-grid collision model,
entity physics, camera / depth ordering) against its specification.

The embedding below follows the C++ sources under `include/core/Math.h`,
`include/rendering/Renderer.h` (the `Game::Tile` / `Game::TileGrid` part),
`include/rendering/Camera.h`, `include/game/Enemy.h`, `include/game/Player.h`
and the `Game::Platform` header.  Floating-point scalars are embedded as
rationals.  The repository ships declaration-only headers for several
methods; wherever a method body is absent from the repository the Lean
definition is marked `Modelled from the spec:` and follows the
specification's description of that method.
-/

namespace Penumbra

/-- 2D vector (`Math::Vec2`); `float` components are embedded as `ℚ`. -/
structure Vec2 where
  x : ℚ
  y : ℚ
deriving DecidableEq

instance : Add Vec2 where
  add a b := ⟨a.x + b.x, a.y + b.y⟩

instance : Sub Vec2 where
  sub a b := ⟨a.x - b.x, a.y - b.y⟩

/-- Scale a vector by a scalar. -/
def Vec2.scale (t : ℚ) (v : Vec2) : Vec2 := ⟨t * v.x, t * v.y⟩

theorem Vec2.add_def (a b : Vec2) : a + b = ⟨a.x + b.x, a.y + b.y⟩ := rfl

theorem Vec2.sub_def (a b : Vec2) : a - b = ⟨a.x - b.x, a.y - b.y⟩ := rfl

/-- RGBA color (`Math::Color`). -/
structure Color where
  r : ℚ
  g : ℚ
  b : ℚ
  a : ℚ
deriving DecidableEq

/-- `Math::Color::White`, the default tint. -/
def Color.White : Color := ⟨1, 1, 1, 1⟩

/-- Axis-aligned bounding box (`Math::AABB`): a min corner and a max corner. -/
structure AABB where
  min : Vec2
  max : Vec2
deriving DecidableEq

/-- `Math::AABB::contains`: point-in-box test.  The comparisons are `>=` and
`<=` in the source, so both boundary edges are included. -/
def AABB.contains (b : AABB) (point : Vec2) : Bool :=
  decide (point.x ≥ b.min.x) && decide (point.x ≤ b.max.x) &&
  decide (point.y ≥ b.min.y) && decide (point.y ≤ b.max.y)

/-- `Math::AABB::intersects`: box-overlap test.  The comparisons are `<=` and
`>=` in the source, so boxes touching along an edge or corner intersect. -/
def AABB.intersects (b : AABB) (other : AABB) : Bool :=
  decide (b.min.x ≤ other.max.x) && decide (b.max.x ≥ other.min.x) &&
  decide (b.min.y ≤ other.max.y) && decide (b.max.y ≥ other.min.y)

/-- `Math::clamp`: `value < min ? min : (value > max ? max : value)`. -/
def clamp (value lo hi : ℚ) : ℚ :=
  if value < lo then lo else if value > hi then hi else value

/-- `Math::lerp`: `a + (b - a) * t`. -/
def lerp (a b t : ℚ) : ℚ := a + (b - a) * t

/-- Tile kinds (`Game::TileType`). -/
inductive TileType where
  | Empty
  | Solid
  | Platform
  | Hazard
  | Ladder
deriving DecidableEq

/-- Individual tile in the grid (`Game::Tile`). -/
structure Tile where
  type : TileType
  textureIndex : Int
  tint : Color
deriving DecidableEq

/-- The `Tile` default constructor: an `Empty` tile with texture 0, white tint. -/
instance : Inhabited Tile := ⟨⟨TileType.Empty, 0, Color.White⟩⟩

/-- `Tile::isSolid`. -/
def Tile.isSolid (t : Tile) : Bool := decide (t.type = TileType.Solid)

/-- `Tile.isPlatform` mirrors `Tile::isPlatform`. -/
def Tile.isPlatform (t : Tile) : Bool := decide (t.type = TileType.Platform)

/-- `Tile::isHazard`. -/
def Tile.isHazard (t : Tile) : Bool := decide (t.type = TileType.Hazard)

/-- `Tile::isCollidable`: `isSolid() || isPlatform()`. -/
def Tile.isCollidable (t : Tile) : Bool := t.isSolid || t.isPlatform

/-- Grid-based level structure (`Game::TileGrid`): dimensions plus a row-major
tile store indexed by `y * width + x`. -/
structure TileGrid where
  width : Int
  height : Int
  tiles : List Tile

/-- `Game::TileGrid::TILE_SIZE = 16`. -/
def TileGrid.TILE_SIZE : Int := 16

/-- `TileGrid::toIndex`: `y * width + x`. -/
def TileGrid.toIndex (g : TileGrid) (x y : Int) : Int := y * g.width + x

/-- Modelled from the spec: the body of `TileGrid::isValidPosition` is not in
the repository (the header only declares it); the tests
(`physics_test.cpp`, `ValidPosition`) pin it as `0 ≤ x < width ∧ 0 ≤ y < height`. -/
def TileGrid.isValidPosition (g : TileGrid) (x y : Int) : Bool :=
  decide (0 ≤ x) && decide (x < g.width) && decide (0 ≤ y) && decide (y < g.height)

/-- Modelled from the spec: the body of `TileGrid::getTile` is not in the
repository (the header only declares it); per the spec (§4.1, §7a) an
out-of-bounds query returns an `Empty` tile, and an in-bounds query reads the
stored tile at row-major index `y * width + x`. -/
def TileGrid.getTile (g : TileGrid) (x y : Int) : Tile :=
  if g.isValidPosition x y then g.tiles.getD (g.toIndex x y).toNat default
  else default

/-- World-space box covered by grid cell `(x, y)`: a `TILE_SIZE` square at
`(x * TILE_SIZE, y * TILE_SIZE)`. -/
def TileGrid.tileAABB (x y : Int) : AABB :=
  ⟨⟨(x : ℚ) * (TileGrid.TILE_SIZE : ℚ), (y : ℚ) * (TileGrid.TILE_SIZE : ℚ)⟩,
   ⟨(x : ℚ) * (TileGrid.TILE_SIZE : ℚ) + (TileGrid.TILE_SIZE : ℚ),
    (y : ℚ) * (TileGrid.TILE_SIZE : ℚ) + (TileGrid.TILE_SIZE : ℚ)⟩⟩

/-- Modelled from the spec: the body of `TileGrid::checkCollision` is not in
the repository; its header doc states it returns true iff some solid/platform
tile intersects the given AABB, so the model scans every grid cell for a
collidable tile whose world box intersects `bounds`. -/
def TileGrid.checkCollision (g : TileGrid) (bounds : AABB) : Bool :=
  (List.range g.height.toNat).any fun gy =>
    (List.range g.width.toNat).any fun gx =>
      (g.getTile gx gy).isCollidable && (TileGrid.tileAABB gx gy).intersects bounds

/-- Truncation toward zero, the semantics of C++'s `(int)` cast on a scalar. -/
def truncToInt (q : ℚ) : Int := if 0 ≤ q then ⌊q⌋ else ⌈q⌉

/-- Modelled from the spec: the body of `TileGrid::worldToGrid` is not in the
repository; the tests (`WorldToGrid`: world `(32, 48)` ↦ grid `(2, 3)`) pin it
as division of each world coordinate by `TILE_SIZE` cast to `int`. -/
def TileGrid.worldToGrid (worldX worldY : ℚ) : Int × Int :=
  (truncToInt (worldX / (TileGrid.TILE_SIZE : ℚ)),
   truncToInt (worldY / (TileGrid.TILE_SIZE : ℚ)))

/-- Modelled from the spec: the body of `TileGrid::gridToWorld` is not in the
repository; the tests (`GridToWorld`: grid `(2, 3)` ↦ world `(32, 48)`) pin it
as multiplication of each grid coordinate by `TILE_SIZE`. -/
def TileGrid.gridToWorld (gridX gridY : Int) : ℚ × ℚ :=
  ((gridX : ℚ) * (TileGrid.TILE_SIZE : ℚ), (gridY : ℚ) * (TileGrid.TILE_SIZE : ℚ))

/-- Modelled from the spec: one stacked collision layer of a grid cell (§3):
`{ bottomHeight, topHeight, kind }`.  The layered collision grid appears only
in the spec; the repository's headers hold the flat 2-D `TileGrid`. -/
structure CollisionLayer where
  bottomHeight : ℚ
  topHeight : ℚ
  kind : TileType
deriving DecidableEq

/-- Half-open membership test of the spec's layer contract: `height` lies in
`[bottomHeight, topHeight)`. -/
def CollisionLayer.containsHeight (L : CollisionLayer) (h : ℚ) : Bool :=
  decide (L.bottomHeight ≤ h) && decide (h < L.topHeight)

/-- Modelled from the spec: `queryLayerAt(cellCoord, height)` (§4.1) returns
the layer of the cell whose `[bottom, top)` interval contains `height`, or
None; the cell's layer list is scanned in storage order. -/
def queryLayerAt (layers : List CollisionLayer) (h : ℚ) : Option CollisionLayer :=
  layers.find? (fun L => L.containsHeight h)

/-- The spec's per-cell invariant (§3): layers of one cell are pairwise
non-overlapping height intervals. -/
def nonOverlapping (layers : List CollisionLayer) : Prop :=
  layers.Pairwise (fun L1 L2 =>
    L1.topHeight ≤ L2.bottomHeight ∨ L2.topHeight ≤ L1.bottomHeight)

/-- Camera follow modes (`Rendering::CameraMode`). -/
inductive CameraMode where
  | Fixed
  | FollowPlayer
  | Lerp
  | DeadZone
deriving DecidableEq

/-- 2D camera state (`Rendering::Camera`), the private fields of the header. -/
structure Camera where
  position : Vec2
  targetPosition : Vec2
  mode : CameraMode
  lerpSpeed : ℚ
  deadZoneSize : Vec2
  hasBounds : Bool
  boundsMin : Vec2
  boundsMax : Vec2
  viewportWidth : ℚ
  viewportHeight : ℚ
  zoom : ℚ
  shakeIntensity : ℚ
  shakeDuration : ℚ
  shakeTimer : ℚ

/-- `Camera::setLerpSpeed`: `lerpSpeed = Math::clamp(speed, 0.0f, 1.0f)`. -/
def Camera.setLerpSpeed (c : Camera) (speed : ℚ) : Camera :=
  { c with lerpSpeed := clamp speed 0 1 }

/-- `Camera::setPosition`. -/
def Camera.setPosition (c : Camera) (x y : ℚ) : Camera :=
  { c with position := ⟨x, y⟩ }

/-- `Camera::setTarget`. -/
def Camera.setTarget (c : Camera) (target : Vec2) : Camera :=
  { c with targetPosition := target }

/-- `Camera::setMode`: `this->mode = mode`. -/
def Camera.setMode (c : Camera) (mode : CameraMode) : Camera :=
  { c with mode := mode }

/-- Modelled from the spec: the body of `Camera::setDeadZone` is not in the
repository; it stores the dead-zone rectangle size. -/
def Camera.setDeadZone (c : Camera) (w h : ℚ) : Camera :=
  { c with deadZoneSize := ⟨w, h⟩ }

/-- Modelled from the spec: the body of `Camera::setBounds` is not in the
repository; it stores the optional world-bounds rectangle and enables it. -/
def Camera.setBounds (c : Camera) (minX minY maxX maxY : ℚ) : Camera :=
  { c with hasBounds := true, boundsMin := ⟨minX, minY⟩, boundsMax := ⟨maxX, maxY⟩ }

/-- Modelled from the spec: the body of `Camera::clearBounds` is not in the
repository; it disables the bounds rectangle. -/
def Camera.clearBounds (c : Camera) : Camera :=
  { c with hasBounds := false }

/-- Modelled from the spec: the body of `Camera::setZoom` is not in the
repository; it stores the zoom factor. -/
def Camera.setZoom (c : Camera) (z : ℚ) : Camera :=
  { c with zoom := z }

/-- Modelled from the spec: the body of `Camera::setViewportSize` is not in
the repository; it stores the viewport dimensions. -/
def Camera.setViewportSize (c : Camera) (w h : ℚ) : Camera :=
  { c with viewportWidth := w, viewportHeight := h }

/-- Modelled from the spec: the body of `Camera::shake` is not in the
repository; it arms the shake intensity/duration timers. -/
def Camera.shake (c : Camera) (intensity duration : ℚ) : Camera :=
  { c with shakeIntensity := intensity, shakeDuration := duration,
           shakeTimer := duration }

/-- Modelled from the spec: the body of `Camera::applyBounds` is not in the
repository; per §4.5 the position is clamped into the optional bounds. -/
def Camera.applyBounds (c : Camera) : Camera :=
  if c.hasBounds then
    { c with position := ⟨clamp c.position.x c.boundsMin.x c.boundsMax.x,
                          clamp c.position.y c.boundsMin.y c.boundsMax.y⟩ }
  else c

/-- Modelled from the spec: the body of `Camera::update` is not in the
repository; per §4.5 the position moves toward the target according to the
mode (Lerp: exponential smoothing by `lerpSpeed`; DeadZone: move only when the
target exits a centered rectangle), then is clamped to the optional bounds,
and the shake timer counts down. -/
def Camera.update (c : Camera) (deltaTime : ℚ) : Camera :=
  let moved : Camera :=
    match c.mode with
    | CameraMode.Fixed => c
    | CameraMode.FollowPlayer => { c with position := c.targetPosition }
    | CameraMode.Lerp =>
        { c with position :=
            ⟨lerp c.position.x c.targetPosition.x c.lerpSpeed,
             lerp c.position.y c.targetPosition.y c.lerpSpeed⟩ }
    | CameraMode.DeadZone =>
        let halfW := c.deadZoneSize.x / 2
        let halfH := c.deadZoneSize.y / 2
        let px :=
          if c.targetPosition.x - c.position.x > halfW then c.targetPosition.x - halfW
          else if c.position.x - c.targetPosition.x > halfW then c.targetPosition.x + halfW
          else c.position.x
        let py :=
          if c.targetPosition.y - c.position.y > halfH then c.targetPosition.y - halfH
          else if c.position.y - c.targetPosition.y > halfH then c.targetPosition.y + halfH
          else c.position.y
        { c with position := ⟨px, py⟩ }
  let shaken := { moved with shakeTimer := moved.shakeTimer - deltaTime }
  shaken.applyBounds

/-- One public mutating camera operation, for stating whole-interface
invariants. -/
inductive CameraOp where
  | setPosition (x y : ℚ)
  | setTarget (t : Vec2)
  | setMode (m : CameraMode)
  | setLerpSpeed (s : ℚ)
  | setDeadZone (w h : ℚ)
  | setBounds (a b cx d : ℚ)
  | clearBounds
  | setZoom (z : ℚ)
  | setViewportSize (w h : ℚ)
  | shake (i d : ℚ)
  | update (dt : ℚ)

/-- Dispatch a `CameraOp` to the corresponding `Camera` method. -/
def Camera.applyOp (c : Camera) : CameraOp → Camera
  | CameraOp.setPosition x y => c.setPosition x y
  | CameraOp.setTarget t => c.setTarget t
  | CameraOp.setMode m => c.setMode m
  | CameraOp.setLerpSpeed s => c.setLerpSpeed s
  | CameraOp.setDeadZone w h => c.setDeadZone w h
  | CameraOp.setBounds a b cx d => c.setBounds a b cx d
  | CameraOp.clearBounds => c.clearBounds
  | CameraOp.setZoom z => c.setZoom z
  | CameraOp.setViewportSize w h => c.setViewportSize w h
  | CameraOp.shake i d => c.shake i d
  | CameraOp.update dt => c.update dt

/-- Apply a sequence of camera operations in order. -/
def Camera.applyOps (c : Camera) (ops : List CameraOp) : Camera :=
  ops.foldl Camera.applyOp c

/-- Enemy AI behaviors (`Game::EnemyBehavior`). -/
inductive EnemyBehavior where
  | Patrol
  | Chase
  | Guard
  | Fly
deriving DecidableEq

/-- Enemy entity state (`Game::Enemy`), the private fields of the header. -/
structure Enemy where
  position : Vec2
  velocity : Vec2
  behavior : EnemyBehavior
  facingRight : Bool
  health : Int
  maxHealth : Int
  contactDamage : Int
  deathTimer : ℚ
  patrolPointA : Vec2
  patrolPointB : Vec2
  movingToPointB : Bool
  detectionRange : ℚ
  chasingPlayer : Bool

/-- `Enemy::PATROL_SPEED = 40.0f`. -/
def Enemy.PATROL_SPEED : ℚ := 40

/-- `Enemy::DEATH_DURATION = 1.0f`. -/
def Enemy.DEATH_DURATION : ℚ := 1

/-- `Enemy::isAlive`: `health > 0`. -/
def Enemy.isAlive (e : Enemy) : Bool := decide (0 < e.health)

/-- `Enemy::shouldRemove`: `!isAlive() && deathTimer <= 0.0f`. -/
def Enemy.shouldRemove (e : Enemy) : Bool :=
  !e.isAlive && decide (e.deathTimer ≤ 0)

/-- `Enemy::setPatrolPath`. -/
def Enemy.setPatrolPath (e : Enemy) (pointA pointB : Vec2) : Enemy :=
  { e with patrolPointA := pointA, patrolPointB := pointB }

/-- Modelled from the spec: the body of `Enemy::takeDamage` is not in the
repository; per §4.3 health decrements and death (health reaching ≤ 0) arms
the fixed-duration death timer `DEATH_DURATION`. -/
def Enemy.takeDamage (e : Enemy) (amount : Int) : Enemy :=
  let h := e.health - amount
  if h ≤ 0 ∧ 0 < e.health then
    { e with health := h, deathTimer := Enemy.DEATH_DURATION }
  else
    { e with health := h }

/-- Modelled from the spec: the body of `Enemy::updatePatrol` is not in the
repository; per §4.3 a patrolling enemy oscillates between its two waypoints
at `PATROL_SPEED` and reverses on waypoint arrival.  The patrol paths of the
spec's scenarios are horizontal, so the model moves toward the current
waypoint's x at `PATROL_SPEED`, stopping exactly on it when it is within one
tick's reach, and flips `movingToPointB` on arrival. -/
def Enemy.updatePatrol (e : Enemy) (deltaTime : ℚ) : Enemy :=
  let targetX := if e.movingToPointB then e.patrolPointB.x else e.patrolPointA.x
  let step := Enemy.PATROL_SPEED * deltaTime
  let dx := targetX - e.position.x
  if |dx| ≤ step then
    { e with position := ⟨targetX, e.position.y⟩,
             movingToPointB := !e.movingToPointB }
  else
    let moved := if 0 < dx then e.position.x + step else e.position.x - step
    { e with position := ⟨moved, e.position.y⟩ }

/-- Modelled from the spec: the body of `Enemy::update` is not in the
repository; per §4.3 a dead enemy only counts its death timer down, and an
alive `Patrol` enemy runs `updatePatrol`.  The remaining behaviors (Chase,
Guard, Fly) depend on the player's position and are outside the claims, so
they leave the state unchanged here. -/
def Enemy.update (e : Enemy) (deltaTime : ℚ) : Enemy :=
  if e.health ≤ 0 then { e with deathTimer := e.deathTimer - deltaTime }
  else
    match e.behavior with
    | EnemyBehavior.Patrol => e.updatePatrol deltaTime
    | _ => e

/-- `n` simulation ticks of a fixed-tick enemy update. -/
def Enemy.updateIter (e : Enemy) (deltaTime : ℚ) : Nat → Enemy
  | 0 => e
  | n + 1 => (e.update deltaTime).updateIter deltaTime n

/-- `n` simulation ticks of the patrol step alone. -/
def Enemy.patrolIter (e : Enemy) (deltaTime : ℚ) : Nat → Enemy
  | 0 => e
  | n + 1 => (e.updatePatrol deltaTime).patrolIter deltaTime n

/-- Platform movement patterns (`Game::PlatformPattern`). -/
inductive PlatformPattern where
  | Static
  | LinearLoop
  | PingPong
  | Circular
  | PathFollow
deriving DecidableEq

/-- Moving platform state (`Game::Platform`), the private fields of the
header (the circular-movement fields are carried but the trigonometric
circular trajectory stays outside the rational embedding). -/
structure Platform where
  position : Vec2
  size : Vec2
  velocity : Vec2
  pattern : PlatformPattern
  active : Bool
  startPosition : Vec2
  endPosition : Vec2
  moveSpeed : ℚ
  movementProgress : ℚ
  movingForward : Bool
  circleCenter : Vec2
  circleRadius : ℚ
  angularSpeed : ℚ
  currentAngle : ℚ

/-- `Platform::getVelocity`: `return velocity` (used to move a carried
entity with the platform). -/
def Platform.getVelocity (p : Platform) : Vec2 := p.velocity

/-- Position on the segment from `startPosition` to `endPosition` at
interpolation parameter `t`. -/
def Platform.pointAt (p : Platform) (t : ℚ) : Vec2 :=
  ⟨lerp p.startPosition.x p.endPosition.x t, lerp p.startPosition.y p.endPosition.y t⟩

/-- Modelled from the spec: the bodies of `Platform::update` /
`updateLinearMovement` are not in the repository; per §4.4 each tick produces
a new position (LinearLoop wraps the interpolation parameter, PingPong
reverses at the endpoints, Static and the patterns outside the rational
embedding hold position) and the velocity delta `(newPos - oldPos) / dt`
that carried entities consume in the same tick. -/
def Platform.update (p : Platform) (deltaTime : ℚ) : Platform :=
  if !p.active ∨ deltaTime = 0 then p
  else
    let next : Platform :=
      match p.pattern with
      | PlatformPattern.LinearLoop =>
          let raw := p.movementProgress + p.moveSpeed * deltaTime
          let t := if raw ≥ 1 then raw - 1 else raw
          { p with movementProgress := t, position := p.pointAt t }
      | PlatformPattern.PingPong =>
          let raw := if p.movingForward then p.movementProgress + p.moveSpeed * deltaTime
                     else p.movementProgress - p.moveSpeed * deltaTime
          if raw ≥ 1 then
            { p with movementProgress := 1, movingForward := false,
                     position := p.pointAt 1 }
          else if raw ≤ 0 then
            { p with movementProgress := 0, movingForward := true,
                     position := p.pointAt 0 }
          else
            { p with movementProgress := raw, position := p.pointAt raw }
      | _ => p
    { next with velocity := Vec2.scale (1 / deltaTime) (next.position - p.position) }

/-- Modelled from the spec: platform carrying (§4.4, §8) as executed inside
`Player::update` — a supported entity adds the current-tick platform velocity
times `deltaTime` to its own displacement; an unsupported entity moves by its
own displacement alone. -/
def carriedPosition (entityPos ownDisplacement : Vec2) (p : Platform)
    (deltaTime : ℚ) (supported : Bool) : Vec2 :=
  if supported then
    entityPos + ownDisplacement + Vec2.scale deltaTime (p.update deltaTime).getVelocity
  else
    entityPos + ownDisplacement

/-- Modelled from the spec: the depth mapping (§3, §4.5) `depth =
f(worldHeight, worldY)` computed at sprite submission time; the exact
height-to-depth scale is flagged by the spec as an implementation parameter,
so it is a positive parameter `heightScale` here, and the screen-diagonal
term enters through `x + y`. -/
def depthValue (heightScale xySlope : ℚ) (worldX worldY worldHeight : ℚ) : ℚ :=
  heightScale * worldHeight + xySlope * (worldX + worldY)

/-- Modelled from the spec: the hardware depth test under the spec's
convention that nearer-camera / higher objects carry the larger depth value
and win: the incoming fragment at depth `dNew` wins against a stored depth
`dOld` iff `dOld < dNew`. -/
def depthTestWins (dNew dOld : ℚ) : Bool := decide (dOld < dNew)

/-! Helper lemmas. -/

/-- `clamp` lands in `[lo, hi]` whenever `lo ≤ hi`. -/
lemma clamp_mem (value lo hi : ℚ) (h : lo ≤ hi) :
    lo ≤ clamp value lo hi ∧ clamp value lo hi ≤ hi := by
  unfold clamp
  split_ifs with h1 h2 <;> constructor <;> linarith

/-- Scaling by `dt` undoes scaling by `1 / dt`. -/
lemma Vec2.scale_inv_cancel (dt : ℚ) (h : dt ≠ 0) (v : Vec2) :
    Vec2.scale dt (Vec2.scale (1 / dt) v) = v := by
  cases v with
  | mk vx vy =>
    simp only [Vec2.scale, Vec2.mk.injEq]
    constructor <;> field_simp

/-! Claim theorems. -/

/-- Claim C2: the depth value computed at sprite submission time is strictly
monotone in world height over a fixed `(x, y)` column, so of two sprites at
the same footprint with heights `h1 < h2`, the one at `h2` wins the hardware
depth test. -/
theorem depth_monotone_height_wins (heightScale xySlope wx wy h1 h2 : ℚ)
    (hscale : 0 < heightScale) (hlt : h1 < h2) :
    depthValue heightScale xySlope wx wy h1 < depthValue heightScale xySlope wx wy h2 ∧
    depthTestWins (depthValue heightScale xySlope wx wy h2)
      (depthValue heightScale xySlope wx wy h1) = true := by
  have hmul : heightScale * h1 < heightScale * h2 :=
    (mul_lt_mul_left hscale).2 hlt
  constructor
  · unfold depthValue; linarith
  · unfold depthTestWins depthValue
    simp only [decide_eq_true_eq]
    linarith

/-- Witness for C2 at scale 1, slope 1, column `(0, 0)`, heights `0 < 1`. -/
theorem depth_monotone_height_wins_witness :
    depthValue 1 1 0 0 0 < depthValue 1 1 0 0 1 ∧
    depthTestWins (depthValue 1 1 0 0 1) (depthValue 1 1 0 0 0) = true :=
  depth_monotone_height_wins 1 1 0 0 0 1 (by norm_num) (by norm_num)

/-- Claim C8: with `TILE_SIZE` fixed at 16, `gridToWorld` maps an in-bounds
grid coordinate `(gx, gy)` to `(gx * 16, gy * 16)` and `worldToGrid` maps
that world point back to exactly `(gx, gy)`. -/
theorem grid_world_roundtrip (g : TileGrid) (gx gy : Int)
    (_hv : g.isValidPosition gx gy = true) :
    TileGrid.TILE_SIZE = 16 ∧
    TileGrid.gridToWorld gx gy = ((gx : ℚ) * 16, (gy : ℚ) * 16) ∧
    TileGrid.worldToGrid ((gx : ℚ) * 16) ((gy : ℚ) * 16) = (gx, gy) := by
  have hι : ∀ z : Int, truncToInt ((z : ℚ) * 16 / ((16 : ℤ) : ℚ)) = z := by
    intro z
    have h16 : ((16 : ℤ) : ℚ) = (16 : ℚ) := by norm_num
    have hdiv : (z : ℚ) * 16 / ((16 : ℤ) : ℚ) = (z : ℚ) := by
      rw [h16]; field_simp
    rw [hdiv]
    unfold truncToInt
    split_ifs with h
    · exact Int.floor_intCast z
    · exact Int.ceil_intCast z
  refine ⟨rfl, ?_, ?_⟩
  · unfold TileGrid.gridToWorld TileGrid.TILE_SIZE
    norm_num
  · unfold TileGrid.worldToGrid TileGrid.TILE_SIZE
    rw [hι gx, hι gy]

/-- Witness for C8 on a 10×10 grid at grid cell `(2, 3)`. -/
theorem grid_world_roundtrip_witness :
    TileGrid.TILE_SIZE = 16 ∧
    TileGrid.gridToWorld 2 3 = ((32 : ℚ), (48 : ℚ)) ∧
    TileGrid.worldToGrid 32 48 = (2, 3) := by
  have h := grid_world_roundtrip ⟨10, 10, []⟩ 2 3 (by decide)
  refine ⟨h.1, ?_, ?_⟩
  · rw [h.2.1]; norm_num
  · have h32 : ((2 : ℤ) : ℚ) * 16 = 32 := by norm_num
    have h48 : ((3 : ℤ) : ℚ) * 16 = 48 := by norm_num
    rw [← h32, ← h48]; exact h.2.2

/-- Claim C9: AABB boundary semantics are closed on both ends — `contains`
accepts every point lying exactly on a box's min or max edge, and
`intersects` accepts two boxes that touch only along a shared edge or only at
a shared corner, so mere edge contact counts as overlap. -/
theorem aabb_boundary_is_closed :
    (∀ (b : AABB) (p : Vec2), b.min.x ≤ b.max.x → b.min.y ≤ b.max.y →
      ((p.x = b.min.x ∨ p.x = b.max.x) ∧ b.min.y ≤ p.y ∧ p.y ≤ b.max.y) ∨
      ((p.y = b.min.y ∨ p.y = b.max.y) ∧ b.min.x ≤ p.x ∧ p.x ≤ b.max.x) →
      b.contains p = true) ∧
    (∀ (a c : AABB), a.max.x = c.min.x →
      a.min.x ≤ a.max.x → c.min.x ≤ c.max.x →
      a.min.y ≤ c.max.y → c.min.y ≤ a.max.y →
      a.intersects c = true) ∧
    (∀ (a c : AABB), a.max.x = c.min.x → a.max.y = c.min.y →
      a.min.x ≤ a.max.x → c.min.x ≤ c.max.x →
      a.min.y ≤ a.max.y → c.min.y ≤ c.max.y →
      a.intersects c = true) := by
  refine ⟨?_, ?_, ?_⟩
  · intro b p hwx hwy hedge
    unfold AABB.contains
    simp only [Bool.and_eq_true, decide_eq_true_eq, ge_iff_le]
    rcases hedge with ⟨hx, hy1, hy2⟩ | ⟨hy, hx1, hx2⟩
    · rcases hx with hx | hx <;> refine ⟨⟨⟨?_, ?_⟩, ?_⟩, ?_⟩ <;> linarith
    · rcases hy with hy | hy <;> refine ⟨⟨⟨?_, ?_⟩, ?_⟩, ?_⟩ <;> linarith
  · intro a c hshared hwa hwc hy1 hy2
    unfold AABB.intersects
    simp only [Bool.and_eq_true, decide_eq_true_eq, ge_iff_le]
    refine ⟨⟨⟨?_, ?_⟩, ?_⟩, ?_⟩ <;> linarith
  · intro a c hcx hcy hwa hwc hya hyc
    unfold AABB.intersects
    simp only [Bool.and_eq_true, decide_eq_true_eq, ge_iff_le]
    refine ⟨⟨⟨?_, ?_⟩, ?_⟩, ?_⟩ <;> linarith

/-- Witness for C9: the unit box contains its corner `(0, 0)` and the boxes
`[0,1]²` and `[1,2]×[0,1]` that share only an edge intersect. -/
theorem aabb_boundary_is_closed_witness :
    AABB.contains ⟨⟨0, 0⟩, ⟨1, 1⟩⟩ ⟨0, 0⟩ = true ∧
    AABB.intersects ⟨⟨0, 0⟩, ⟨1, 1⟩⟩ ⟨⟨1, 0⟩, ⟨2, 1⟩⟩ = true := by
  constructor
  · exact aabb_boundary_is_closed.1 ⟨⟨0, 0⟩, ⟨1, 1⟩⟩ ⟨0, 0⟩ (by norm_num)
      (by norm_num) (Or.inl ⟨Or.inl rfl, by norm_num, by norm_num⟩)
  · exact aabb_boundary_is_closed.2.1 ⟨⟨0, 0⟩, ⟨1, 1⟩⟩ ⟨⟨1, 0⟩, ⟨2, 1⟩⟩ rfl
      (by norm_num) (by norm_num) (by norm_num) (by norm_num)

/-- The camera's stored lerp speed is untouched by `update`. -/
lemma Camera.update_lerpSpeed (c : Camera) (dt : ℚ) :
    (c.update dt).lerpSpeed = c.lerpSpeed := by
  unfold Camera.update Camera.applyBounds
  cases c.mode <;> dsimp only <;> split_ifs <;> rfl

/-- No single camera operation moves an in-range lerp speed out of `[0, 1]`. -/
lemma Camera.applyOp_lerpSpeed_mem (c : Camera) (op : CameraOp)
    (h0 : 0 ≤ c.lerpSpeed) (h1 : c.lerpSpeed ≤ 1) :
    0 ≤ (c.applyOp op).lerpSpeed ∧ (c.applyOp op).lerpSpeed ≤ 1 := by
  cases op with
  | setLerpSpeed s =>
      exact clamp_mem s 0 1 (by norm_num)
  | update dt =>
      rw [Camera.applyOp, Camera.update_lerpSpeed]; exact ⟨h0, h1⟩
  | setPosition x y => exact ⟨h0, h1⟩
  | setTarget t => exact ⟨h0, h1⟩
  | setMode m => exact ⟨h0, h1⟩
  | setDeadZone w h => exact ⟨h0, h1⟩
  | setBounds a b cx d => exact ⟨h0, h1⟩
  | clearBounds => exact ⟨h0, h1⟩
  | setZoom z => exact ⟨h0, h1⟩
  | setViewportSize w h => exact ⟨h0, h1⟩
  | shake i d => exact ⟨h0, h1⟩

/-- Claim C10: `setLerpSpeed` clamps every input into `[0, 1]` (negative
inputs store 0, inputs above 1 store 1), and no sequence of camera operations
moves an in-range stored lerp speed outside `[0, 1]`. -/
theorem camera_lerp_speed_always_clamped :
    (∀ (c : Camera) (s : ℚ), s < 0 → (c.setLerpSpeed s).lerpSpeed = 0) ∧
    (∀ (c : Camera) (s : ℚ), 1 < s → (c.setLerpSpeed s).lerpSpeed = 1) ∧
    (∀ (c : Camera) (s : ℚ),
      0 ≤ (c.setLerpSpeed s).lerpSpeed ∧ (c.setLerpSpeed s).lerpSpeed ≤ 1) ∧
    (∀ (c : Camera) (ops : List CameraOp),
      0 ≤ c.lerpSpeed → c.lerpSpeed ≤ 1 →
      0 ≤ (c.applyOps ops).lerpSpeed ∧ (c.applyOps ops).lerpSpeed ≤ 1) := by
  refine ⟨?_, ?_, ?_, ?_⟩
  · intro c s hs
    unfold Camera.setLerpSpeed clamp
    simp only
    rw [if_pos hs]
  · intro c s hs
    unfold Camera.setLerpSpeed clamp
    simp only
    rw [if_neg (by linarith), if_pos hs]
  · intro c s
    exact clamp_mem s 0 1 (by norm_num)
  · intro c ops
    induction ops generalizing c with
    | nil => intro h0 h1; exact ⟨h0, h1⟩
    | cons op rest ih =>
        intro h0 h1
        have hstep := Camera.applyOp_lerpSpeed_mem c op h0 h1
        exact ih (c.applyOp op) hstep.1 hstep.2

/-- Witness for C10 on a concrete camera with a `setLerpSpeed 2` followed by
an update tick. -/
theorem camera_lerp_speed_always_clamped_witness :
    0 ≤ (Camera.applyOps
          ⟨⟨0, 0⟩, ⟨0, 0⟩, CameraMode.Lerp, 0, ⟨0, 0⟩, false, ⟨0, 0⟩, ⟨0, 0⟩,
           800, 600, 1, 0, 0, 0⟩
          [CameraOp.setLerpSpeed 2, CameraOp.update 1]).lerpSpeed ∧
    (Camera.applyOps
          ⟨⟨0, 0⟩, ⟨0, 0⟩, CameraMode.Lerp, 0, ⟨0, 0⟩, false, ⟨0, 0⟩, ⟨0, 0⟩,
           800, 600, 1, 0, 0, 0⟩
          [CameraOp.setLerpSpeed 2, CameraOp.update 1]).lerpSpeed ≤ 1 :=
  camera_lerp_speed_always_clamped.2.2.2
    ⟨⟨0, 0⟩, ⟨0, 0⟩, CameraMode.Lerp, 0, ⟨0, 0⟩, false, ⟨0, 0⟩, ⟨0, 0⟩,
     800, 600, 1, 0, 0, 0⟩
    [CameraOp.setLerpSpeed 2, CameraOp.update 1] (by norm_num) (by norm_num)

/-- A dead enemy's ticks only count the death timer down linearly, leaving
health unchanged. -/
lemma Enemy.updateIter_dead (dt : ℚ) (n : Nat) :
    ∀ (e : Enemy), e.health ≤ 0 →
      (e.updateIter dt n).health = e.health ∧
      (e.updateIter dt n).deathTimer = e.deathTimer - n * dt := by
  induction n with
  | zero =>
      intro e _
      simp [Enemy.updateIter]
  | succ m ih =>
      intro e hdead
      have hstep : e.update dt = { e with deathTimer := e.deathTimer - dt } := by
        unfold Enemy.update
        rw [if_pos hdead]
      have hm := ih (e.update dt) (by rw [hstep]; exact hdead)
      rw [Enemy.updateIter, hm.1, hm.2, hstep]
      constructor
      · rfl
      · push_cast
        ring

/-- Claim C7: `shouldRemove` holds exactly when health is ≤ 0 and the death
timer has elapsed; while the timer is still positive the enemy is kept, and
after lethal damage the enemy is removed at tick `n` of a fixed-tick
simulation exactly when `n · dt` has reached `DEATH_DURATION = 1`. -/
theorem should_remove_iff_dead_and_timer_elapsed (e : Enemy) :
    (e.shouldRemove = true ↔ e.health ≤ 0 ∧ e.deathTimer ≤ 0) ∧
    (0 < e.deathTimer → e.shouldRemove = false) ∧
    (∀ (amount : Int) (dt : ℚ) (n : Nat), 0 < e.health → e.health ≤ amount →
      (((e.takeDamage amount).updateIter dt n).shouldRemove = true ↔
        Enemy.DEATH_DURATION ≤ (n : ℚ) * dt)) := by
  have hiff : ∀ f : Enemy, f.shouldRemove = true ↔ f.health ≤ 0 ∧ f.deathTimer ≤ 0 := by
    intro f
    unfold Enemy.shouldRemove Enemy.isAlive
    simp only [Bool.and_eq_true, Bool.not_eq_true', decide_eq_false_iff_not,
      decide_eq_true_eq, not_lt]
  refine ⟨hiff e, ?_, ?_⟩
  · intro htimer
    rcases hb : e.shouldRemove with _ | _
    · rfl
    · have := (hiff e).1 hb
      linarith [this.2]
  · intro amount dt n halive hlethal
    have hdmg : e.takeDamage amount =
        { e with health := e.health - amount, deathTimer := Enemy.DEATH_DURATION } := by
      unfold Enemy.takeDamage
      rw [if_pos ⟨by omega, halive⟩]
    have hdead : (e.takeDamage amount).health ≤ 0 := by
      rw [hdmg]; dsimp only; omega
    have hit := Enemy.updateIter_dead dt n (e.takeDamage amount) hdead
    rw [hiff, hit.1, hit.2, hdmg]
    dsimp only
    constructor
    · intro hh
      linarith [hh.2]
    · intro hh
      exact ⟨by omega, by linarith⟩

/-- Witness for C7: a 3-health patrol enemy, lethally hit, is kept right
after death and removed after two half-second ticks. -/
theorem should_remove_iff_dead_and_timer_elapsed_witness :
    (((⟨⟨0, 0⟩, ⟨0, 0⟩, EnemyBehavior.Patrol, true, 3, 3, 1, 0, ⟨0, 0⟩,
        ⟨100, 0⟩, true, 0, false⟩ : Enemy).takeDamage 5).updateIter (1/2) 2).shouldRemove
      = true := by
  have h := (should_remove_iff_dead_and_timer_elapsed
    ⟨⟨0, 0⟩, ⟨0, 0⟩, EnemyBehavior.Patrol, true, 3, 3, 1, 0, ⟨0, 0⟩,
     ⟨100, 0⟩, true, 0, false⟩).2.2 5 (1/2) 2 (by norm_num) (by norm_num)
  exact h.mpr (by unfold Enemy.DEATH_DURATION; norm_num)

/-- Two distinct layers of a non-overlapping cell cannot both contain one
height. -/
lemma containsHeight_unique (layers : List CollisionLayer) (h : ℚ)
    (hno : nonOverlapping layers) :
    ∀ A ∈ layers, ∀ L ∈ layers,
      A.containsHeight h = true → L.containsHeight h = true → A = L := by
  intro A hA L hL hAc hLc
  by_contra hne
  have hsymm : Symmetric (fun L1 L2 : CollisionLayer =>
      L1.topHeight ≤ L2.bottomHeight ∨ L2.topHeight ≤ L1.bottomHeight) := by
    intro u v huv
    exact huv.symm
  have hrel := List.Pairwise.forall hsymm hno hA hL hne
  unfold CollisionLayer.containsHeight at hAc hLc
  simp only [Bool.and_eq_true, decide_eq_true_eq] at hAc hLc
  rcases hrel with hr | hr
  · linarith [hAc.2, hLc.1]
  · linarith [hLc.2, hAc.1]

/-- Claim C1: over a cell whose layers are non-overlapping, `queryLayerAt`
returns `some L` exactly when `L` is a stored layer whose half-open interval
`[bottomHeight, topHeight)` contains the queried height — so the result is
the unique such layer — and returns `none` exactly when no stored layer's
interval contains the height. -/
theorem query_layer_at_unique (layers : List CollisionLayer) (h : ℚ)
    (hno : nonOverlapping layers) :
    (∀ L : CollisionLayer,
      queryLayerAt layers h = some L ↔ L ∈ layers ∧ L.containsHeight h = true) ∧
    (queryLayerAt layers h = none ↔ ∀ L ∈ layers, L.containsHeight h = false) := by
  constructor
  · intro L
    constructor
    · intro hfind
      unfold queryLayerAt at hfind
      have hp := List.find?_some hfind
      exact ⟨List.mem_of_find?_eq_some hfind, by simpa using hp⟩
    · rintro ⟨hmem, hcont⟩
      rcases hq : queryLayerAt layers h with _ | A
      · rw [queryLayerAt, List.find?_eq_none] at hq
        exact absurd hcont (by simpa using hq L hmem)
      · unfold queryLayerAt at hq
        have hAmem : A ∈ layers := List.mem_of_find?_eq_some hq
        have hAc0 := List.find?_some hq
        have hAc : A.containsHeight h = true := by simpa using hAc0
        have : A = L := containsHeight_unique layers h hno A hAmem L hmem hAc hcont
        rw [this]
  · rw [queryLayerAt, List.find?_eq_none]
    constructor
    · intro hq L hmem
      simpa using hq L hmem
    · intro hq L hmem
      simp [hq L hmem]

/-- Witness for C1 on a cell with layers `[0,16)` Solid and `[16,32)`
Platform queried at height 16: the query lands in the upper layer. -/
theorem query_layer_at_unique_witness :
    queryLayerAt [⟨0, 16, TileType.Solid⟩, ⟨16, 32, TileType.Platform⟩] 16 =
      some ⟨16, 32, TileType.Platform⟩ := by
  have h := query_layer_at_unique
    [⟨0, 16, TileType.Solid⟩, ⟨16, 32, TileType.Platform⟩] 16
    (by unfold nonOverlapping
        refine List.Pairwise.cons ?_ (List.pairwise_singleton _ _)
        intro L hL
        rw [List.mem_singleton] at hL
        rw [hL]
        left
        norm_num)
  exact (h.1 ⟨16, 32, TileType.Platform⟩).2 ⟨by simp, by decide⟩

/-- An active platform's post-update velocity is its tick displacement
divided by the tick duration. -/
lemma Platform.update_velocity_eq (p : Platform) (dt : ℚ)
    (hact : p.active = true) (hdt : dt ≠ 0) :
    (p.update dt).velocity =
      Vec2.scale (1 / dt) ((p.update dt).position - p.position) := by
  unfold Platform.update
  rw [if_neg (by simp [hact, hdt])]

/-- Claim C3: an entity whose supported layer belongs to a moving platform
ends the tick offset by exactly the platform's tick displacement
`Δ = (p.update dt).position - p.position` in addition to its own movement,
while an unsupported entity moves by its own displacement alone. -/
theorem platform_carrying_exact_delta (entityPos ownDisplacement : Vec2)
    (p : Platform) (dt : ℚ) (hact : p.active = true) (hdt : dt ≠ 0) :
    carriedPosition entityPos ownDisplacement p dt true =
      entityPos + ownDisplacement + ((p.update dt).position - p.position) ∧
    carriedPosition entityPos ownDisplacement p dt false =
      entityPos + ownDisplacement := by
  constructor
  · unfold carriedPosition
    rw [if_pos rfl, Platform.getVelocity, Platform.update_velocity_eq p dt hact hdt,
      Vec2.scale_inv_cancel dt hdt]
  · rfl

/-- Witness for C3: a ping-pong platform from `(0, 0)` to `(0, 64)` carries a
standing entity at `(5, 0)` walking by `(1, 0)` to `(6, 16)` in a
quarter-second tick at progress rate 1. -/
theorem platform_carrying_exact_delta_witness :
    carriedPosition ⟨5, 0⟩ ⟨1, 0⟩
      ⟨⟨0, 0⟩, ⟨64, 16⟩, ⟨0, 0⟩, PlatformPattern.PingPong, true, ⟨0, 0⟩,
       ⟨0, 64⟩, 1, 0, true, ⟨0, 0⟩, 0, 0, 0⟩ (1/4) true =
      (⟨5, 0⟩ : Vec2) + ⟨1, 0⟩ +
        (((⟨⟨0, 0⟩, ⟨64, 16⟩, ⟨0, 0⟩, PlatformPattern.PingPong, true, ⟨0, 0⟩,
           ⟨0, 64⟩, 1, 0, true, ⟨0, 0⟩, 0, 0, 0⟩ : Platform).update (1/4)).position -
         (⟨0, 0⟩ : Vec2)) :=
  (platform_carrying_exact_delta ⟨5, 0⟩ ⟨1, 0⟩
    ⟨⟨0, 0⟩, ⟨64, 16⟩, ⟨0, 0⟩, PlatformPattern.PingPong, true, ⟨0, 0⟩,
     ⟨0, 64⟩, 1, 0, true, ⟨0, 0⟩, 0, 0, 0⟩ (1/4) rfl (by norm_num)).1

/-- Cells enumerated by the collision scan are valid grid positions. -/
lemma TileGrid.isValidPosition_of_lt (g : TileGrid) (gx gy : ℕ)
    (hx : gx < g.width.toNat) (hy : gy < g.height.toNat) :
    g.isValidPosition gx gy = true := by
  unfold TileGrid.isValidPosition
  simp only [Bool.and_eq_true, decide_eq_true_eq]
  refine ⟨⟨⟨?_, ?_⟩, ?_⟩, ?_⟩ <;> omega

/-- A query box strictly beyond the grid's world rectangle meets no cell box
of the scan. -/
lemma TileGrid.tileAABB_outside (g : TileGrid) (bounds : AABB) (gx gy : ℕ)
    (hx : gx < g.width.toNat) (hy : gy < g.height.toNat)
    (hout : bounds.max.x < 0 ∨ (g.width : ℚ) * 16 < bounds.min.x ∨
            bounds.max.y < 0 ∨ (g.height : ℚ) * 16 < bounds.min.y) :
    (TileGrid.tileAABB gx gy).intersects bounds = false := by
  rcases hb : (TileGrid.tileAABB gx gy).intersects bounds with _ | _
  · rfl
  · exfalso
    unfold AABB.intersects TileGrid.tileAABB TileGrid.TILE_SIZE at hb
    simp only [Bool.and_eq_true, decide_eq_true_eq, ge_iff_le] at hb
    obtain ⟨⟨⟨h1, h2⟩, h3⟩, h4⟩ := hb
    have hgx0 : (0 : ℚ) ≤ ((gx : ℤ) : ℚ) * ((16 : ℤ) : ℚ) := by positivity
    have hgy0 : (0 : ℚ) ≤ ((gy : ℤ) : ℚ) * ((16 : ℤ) : ℚ) := by positivity
    have hxw : ((gx : ℤ) : ℚ) * ((16 : ℤ) : ℚ) + ((16 : ℤ) : ℚ) ≤ (g.width : ℚ) * 16 := by
      have hi : (gx : ℤ) + 1 ≤ g.width := by omega
      have hq : ((gx : ℕ) : ℚ) + 1 ≤ (g.width : ℚ) := by exact_mod_cast hi
      push_cast
      linarith
    have hyh : ((gy : ℤ) : ℚ) * ((16 : ℤ) : ℚ) + ((16 : ℤ) : ℚ) ≤ (g.height : ℚ) * 16 := by
      have hi : (gy : ℤ) + 1 ≤ g.height := by omega
      have hq : ((gy : ℕ) : ℚ) + 1 ≤ (g.height : ℚ) := by exact_mod_cast hi
      push_cast
      linarith
    rcases hout with h | h | h | h
    · linarith
    · linarith
    · linarith
    · linarith

/-- Claim C4: collision-grid queries outside the declared bounds are safe —
`getTile` at any invalid coordinate yields an `Empty` tile, and
`checkCollision` over a region strictly outside the grid's world rectangle
reports no blocking geometry. -/
theorem out_of_bounds_queries_are_empty :
    (∀ (g : TileGrid) (x y : Int), g.isValidPosition x y = false →
      (g.getTile x y).type = TileType.Empty) ∧
    (∀ (g : TileGrid) (bounds : AABB),
      bounds.max.x < 0 ∨ (g.width : ℚ) * 16 < bounds.min.x ∨
      bounds.max.y < 0 ∨ (g.height : ℚ) * 16 < bounds.min.y →
      g.checkCollision bounds = false) := by
  constructor
  · intro g x y hinvalid
    unfold TileGrid.getTile
    rw [if_neg (by simp [hinvalid])]
    rfl
  · intro g bounds hout
    unfold TileGrid.checkCollision
    rw [List.any_eq_false]
    intro gy hgy
    simp only [Bool.not_eq_true]
    rw [List.any_eq_false]
    intro gx hgx
    simp only [Bool.not_eq_true]
    rw [TileGrid.tileAABB_outside g bounds gx gy (List.mem_range.1 hgx)
      (List.mem_range.1 hgy) hout]
    rw [Bool.and_false]

/-- Witness for C4: on a 2×2 all-solid grid, the tile at `(-1, 0)` is Empty
and a box left of the world reports no collision. -/
theorem out_of_bounds_queries_are_empty_witness :
    ((⟨2, 2, List.replicate 4 ⟨TileType.Solid, 0, Color.White⟩⟩ : TileGrid).getTile
        (-1) 0).type = TileType.Empty ∧
    (⟨2, 2, List.replicate 4 ⟨TileType.Solid, 0, Color.White⟩⟩ : TileGrid).checkCollision
        ⟨⟨-32, -32⟩, ⟨-1, -1⟩⟩ = false := by
  constructor
  · exact out_of_bounds_queries_are_empty.1
      ⟨2, 2, List.replicate 4 ⟨TileType.Solid, 0, Color.White⟩⟩ (-1) 0 (by decide)
  · exact out_of_bounds_queries_are_empty.2
      ⟨2, 2, List.replicate 4 ⟨TileType.Solid, 0, Color.White⟩⟩
      ⟨⟨-32, -32⟩, ⟨-1, -1⟩⟩ (Or.inl (by norm_num))

/-- Claim C5: `isCollidable` holds exactly for Solid and Platform tiles, and
an AABB whose footprint meets only Empty, Hazard or Ladder tiles produces no
collision. -/
theorem hazard_and_ladder_never_block :
    (∀ t : Tile, t.isCollidable = true ↔
      (t.type = TileType.Solid ∨ t.type = TileType.Platform)) ∧
    (∀ (g : TileGrid) (bounds : AABB),
      (∀ x y : Int, g.isValidPosition x y = true →
        (TileGrid.tileAABB x y).intersects bounds = true →
        (g.getTile x y).type = TileType.Empty ∨
        (g.getTile x y).type = TileType.Hazard ∨
        (g.getTile x y).type = TileType.Ladder) →
      g.checkCollision bounds = false) := by
  constructor
  · intro t
    unfold Tile.isCollidable Tile.isSolid Tile.isPlatform
    simp only [Bool.or_eq_true, decide_eq_true_eq]
  · intro g bounds hsoft
    unfold TileGrid.checkCollision
    rw [List.any_eq_false]
    intro gy hgy
    simp only [Bool.not_eq_true]
    rw [List.any_eq_false]
    intro gx hgx
    simp only [Bool.not_eq_true]
    rcases hi : (TileGrid.tileAABB gx gy).intersects bounds with _ | _
    · rw [Bool.and_false]
    · have hvalid := TileGrid.isValidPosition_of_lt g gx gy
        (List.mem_range.1 hgx) (List.mem_range.1 hgy)
      have hkind := hsoft gx gy hvalid hi
      have hnc : (g.getTile gx gy).isCollidable = false := by
        unfold Tile.isCollidable Tile.isSolid Tile.isPlatform
        rcases hkind with h | h | h <;> rw [h] <;> rfl
      rw [hnc, Bool.false_and]

/-- Witness for C5: a 1×1 grid holding one Hazard tile reports no collision
for a box covering the whole cell, and a Hazard tile is not collidable. -/
theorem hazard_and_ladder_never_block_witness :
    (⟨TileType.Hazard, 0, Color.White⟩ : Tile).isCollidable = false ∧
    (⟨1, 1, [⟨TileType.Hazard, 0, Color.White⟩]⟩ : TileGrid).checkCollision
      ⟨⟨0, 0⟩, ⟨16, 16⟩⟩ = false := by
  constructor
  · rcases hb : (⟨TileType.Hazard, 0, Color.White⟩ : Tile).isCollidable with _ | _
    · rfl
    · have := (hazard_and_ladder_never_block.1 ⟨TileType.Hazard, 0, Color.White⟩).1 hb
      rcases this with h | h <;> exact absurd h (by decide)
  · apply hazard_and_ladder_never_block.2
    intro x y hvalid hint
    have hx : x = 0 ∧ y = 0 := by
      unfold TileGrid.isValidPosition at hvalid
      simp only [Bool.and_eq_true, decide_eq_true_eq] at hvalid
      omega
    rw [hx.1, hx.2]
    right
    left
    decide

/-- One patrol tick between waypoints `(0,0)` and `(100,0)`: the x position
stays inside `[0, 100]`, the waypoints are untouched, and the direction flag
flips exactly when the tick ends on the waypoint being approached. -/
lemma Enemy.patrolStep (e : Enemy) (dt : ℚ) (hdt : 0 < dt)
    (hA : e.patrolPointA = ⟨0, 0⟩) (hB : e.patrolPointB = ⟨100, 0⟩)
    (hx0 : 0 ≤ e.position.x) (hx1 : e.position.x ≤ 100) :
    (0 ≤ (e.updatePatrol dt).position.x ∧ (e.updatePatrol dt).position.x ≤ 100) ∧
    (e.updatePatrol dt).patrolPointA = ⟨0, 0⟩ ∧
    (e.updatePatrol dt).patrolPointB = ⟨100, 0⟩ ∧
    (e.movingToPointB = true →
      ((e.updatePatrol dt).movingToPointB = false ↔
        (e.updatePatrol dt).position.x = 100)) ∧
    (e.movingToPointB = false →
      ((e.updatePatrol dt).movingToPointB = true ↔
        (e.updatePatrol dt).position.x = 0)) := by
  have hstep : 0 < Enemy.PATROL_SPEED * dt := by
    unfold Enemy.PATROL_SPEED
    linarith
  rcases hmtb : e.movingToPointB with _ | _
  · unfold Enemy.updatePatrol
    simp only [hmtb, hA, hB, Bool.false_eq_true, if_false, Bool.not_false]
    split_ifs with habs hdx
    · refine ⟨⟨by norm_num, by norm_num⟩, by norm_num, by norm_num,
        fun h => h.elim, fun _ => by norm_num⟩
    · exfalso
      norm_num at hdx
      linarith
    · have hgt : Enemy.PATROL_SPEED * dt < e.position.x := by
        rw [abs_of_nonpos (by norm_num; linarith)] at habs
        push_neg at habs
        norm_num at habs
        linarith
      refine ⟨⟨?_, ?_⟩, by norm_num, by norm_num, fun h => h.elim, fun _ => ?_⟩
      · show (0 : ℚ) ≤ e.position.x - Enemy.PATROL_SPEED * dt
        linarith
      · show e.position.x - Enemy.PATROL_SPEED * dt ≤ 100
        linarith
      · constructor
        · intro hfalse
          exact hfalse.elim
        · intro hx
          have hx' : e.position.x - Enemy.PATROL_SPEED * dt = 0 := hx
          linarith
  · unfold Enemy.updatePatrol
    simp only [hmtb, hA, hB, if_true, Bool.not_true]
    split_ifs with habs hdx
    · refine ⟨⟨by norm_num, by norm_num⟩, by norm_num, by norm_num,
        fun _ => by norm_num, fun h => h.elim⟩
    · have hgt : Enemy.PATROL_SPEED * dt < 100 - e.position.x := by
        rw [abs_of_nonneg (by norm_num; linarith)] at habs
        push_neg at habs
        linarith
      refine ⟨⟨?_, ?_⟩, by norm_num, by norm_num, fun _ => ?_, fun h => h.elim⟩
      · show (0 : ℚ) ≤ e.position.x + Enemy.PATROL_SPEED * dt
        linarith
      · show e.position.x + Enemy.PATROL_SPEED * dt ≤ 100
        linarith
      · constructor
        · intro hfalse
          exact hfalse.elim
        · intro hx
          have hx' : e.position.x + Enemy.PATROL_SPEED * dt = 100 := hx
          linarith
    · exfalso
      norm_num at hdx
      have hx100 : e.position.x = 100 := le_antisymm hx1 hdx
      apply habs
      rw [hx100]
      norm_num
      linarith

/-- Claim C6: an enemy patrolling between waypoints `(0,0)` and `(100,0)` at
speed 40 keeps its x inside `[0, 100]` over every tick of a fixed-tick
simulation — so it never passes a waypoint by more than one tick's worth of
motion `PATROL_SPEED · dt` — and its direction flag flips exactly when a tick
ends on the waypoint being approached (`x = 100` heading to B, `x = 0`
heading back to A). -/
theorem patrol_reverses_without_overshoot (e : Enemy) (dt : ℚ) (hdt : 0 < dt)
    (hA : e.patrolPointA = ⟨0, 0⟩) (hB : e.patrolPointB = ⟨100, 0⟩)
    (hx0 : 0 ≤ e.position.x) (hx1 : e.position.x ≤ 100) :
    (∀ n : Nat, 0 ≤ (e.patrolIter dt n).position.x ∧
      (e.patrolIter dt n).position.x ≤ 100) ∧
    (∀ n : Nat,
      -(Enemy.PATROL_SPEED * dt) ≤ (e.patrolIter dt n).position.x ∧
      (e.patrolIter dt n).position.x ≤ 100 + Enemy.PATROL_SPEED * dt) ∧
    (e.movingToPointB = true →
      ((e.updatePatrol dt).movingToPointB = false ↔
        (e.updatePatrol dt).position.x = 100)) ∧
    (e.movingToPointB = false →
      ((e.updatePatrol dt).movingToPointB = true ↔
        (e.updatePatrol dt).position.x = 0)) := by
  have hstep : 0 < Enemy.PATROL_SPEED * dt := by
    unfold Enemy.PATROL_SPEED
    linarith
  have hiter : ∀ (n : Nat) (f : Enemy), f.patrolPointA = ⟨0, 0⟩ →
      f.patrolPointB = ⟨100, 0⟩ → 0 ≤ f.position.x → f.position.x ≤ 100 →
      0 ≤ (f.patrolIter dt n).position.x ∧ (f.patrolIter dt n).position.x ≤ 100 := by
    intro n
    induction n with
    | zero =>
        intro f _ _ h0 h1
        exact ⟨h0, h1⟩
    | succ m ih =>
        intro f hfA hfB h0 h1
        have hs := Enemy.patrolStep f dt hdt hfA hfB h0 h1
        rw [Enemy.patrolIter]
        exact ih (f.updatePatrol dt) hs.2.1 hs.2.2.1 hs.1.1 hs.1.2
  have hmain := Enemy.patrolStep e dt hdt hA hB hx0 hx1
  refine ⟨fun n => hiter n e hA hB hx0 hx1, fun n => ?_, hmain.2.2.2.1, hmain.2.2.2.2⟩
  have hb := hiter n e hA hB hx0 hx1
  constructor <;> linarith [hb.1, hb.2]

/-- Witness for C6: a patroller at `x = 90` heading to `(100, 0)` with a
half-second tick flips its direction exactly by landing on `x = 100`, and
three ticks later it is still inside `[0, 100]`. -/
theorem patrol_reverses_without_overshoot_witness :
    (((⟨⟨90, 0⟩, ⟨0, 0⟩, EnemyBehavior.Patrol, true, 3, 3, 1, 0, ⟨0, 0⟩,
        ⟨100, 0⟩, true, 0, false⟩ : Enemy).updatePatrol (1/2)).movingToPointB = false ↔
      ((⟨⟨90, 0⟩, ⟨0, 0⟩, EnemyBehavior.Patrol, true, 3, 3, 1, 0, ⟨0, 0⟩,
        ⟨100, 0⟩, true, 0, false⟩ : Enemy).updatePatrol (1/2)).position.x = 100) ∧
    0 ≤ ((⟨⟨90, 0⟩, ⟨0, 0⟩, EnemyBehavior.Patrol, true, 3, 3, 1, 0, ⟨0, 0⟩,
        ⟨100, 0⟩, true, 0, false⟩ : Enemy).patrolIter (1/2) 3).position.x := by
  have h := patrol_reverses_without_overshoot
    ⟨⟨90, 0⟩, ⟨0, 0⟩, EnemyBehavior.Patrol, true, 3, 3, 1, 0, ⟨0, 0⟩,
     ⟨100, 0⟩, true, 0, false⟩ (1/2) (by norm_num) rfl rfl (by norm_num) (by norm_num)
  exact ⟨h.2.2.1 rfl, (h.1 3).1⟩

end Penumbra
